import Mathlib

/-!
# Verification of the freemail in-process caching layer

Shallow embedding of `src/cacheHelper.js`: the namespaced TTL caches
(`tableStructures`, `mailboxIds`, `userQuotas`, `systemStats`), the rate-limited
sweep (`clearExpiredCache`), and the bounded `LRUCache` class.

JavaScript `Map` objects are modelled as association lists that keep insertion
order (`CMap.set` updates an existing key in place and appends a new key at the
end, exactly like `Map.prototype.set`); timestamps (`Date.now()` values) are
natural numbers passed explicitly; database reads that can throw are modelled
as `Except`-valued loader functions, so a propagated exception is an `.error`
result and the `try { ... } catch` in `getCachedTableStructure` is a `match` on
the loader's result.
-/

namespace Freemail

/-- JS `Map` lookup (`Map.prototype.get`): first entry with the given key. -/
def CMap.mget {K E : Type} [DecidableEq K] (m : List (K × E)) (k : K) : Option E :=
  match m with
  | [] => none
  | (k', e) :: rest => if k' = k then some e else CMap.mget rest k

/-- JS `Map.prototype.set`: update an existing key in place (keeping its
position in insertion order) or append a new key at the end. -/
def CMap.mset {K E : Type} [DecidableEq K] (m : List (K × E)) (k : K) (e : E) :
    List (K × E) :=
  match m with
  | [] => [(k, e)]
  | (k', e') :: rest =>
    if k' = k then (k, e) :: rest else (k', e') :: CMap.mset rest k e

/-- JS `Map.prototype.delete`: remove the entry with the given key (on the
well-formed states a `Map` can reach, keys are unique, so removing every
occurrence coincides with removing the single one). -/
def CMap.mdelete {K E : Type} [DecidableEq K] (m : List (K × E)) (k : K) :
    List (K × E) :=
  match m with
  | [] => []
  | (k', e) :: rest =>
    if k' = k then CMap.mdelete rest k else (k', e) :: CMap.mdelete rest k

/-- JS `Map.prototype.has`. -/
def CMap.mhas {K E : Type} [DecidableEq K] (m : List (K × E)) (k : K) : Bool :=
  (CMap.mget m k).isSome

open CMap

/-- One column record produced by `getCachedTableStructure`'s row mapping
(`{ name, type, notnull, dflt_value }`). -/
structure Col where
  name : String
  type : String
  notnull : Nat
  dflt_value : Option String
  deriving DecidableEq, Repr

/-- One raw row of `PRAGMA table_info(...)` as the db returns it. -/
structure Row where
  name : String
  type : String
  notnull : Bool
  dflt_value : Option String
  deriving DecidableEq, Repr

/-- The row mapping in `getCachedTableStructure`:
`{ name: r.name, type: r.type, notnull: r.notnull ? 1 : 0, dflt_value: r.dflt_value }`. -/
def mapRow (r : Row) : Col :=
  { name := r.name, type := r.type, notnull := if r.notnull then 1 else 0,
    dflt_value := r.dflt_value }

/-- Entry of `CACHE.tableStructures`: `{ data, timestamp }`. -/
structure TSEntry where
  data : List Col
  timestamp : Nat
  deriving DecidableEq, Repr

/-- Entry of `CACHE.mailboxIds`: `{ id, timestamp }` (`id` may be `null`). -/
structure MIdEntry where
  id : Option Nat
  timestamp : Nat
  deriving DecidableEq, Repr

/-- The `{used, limit}` quota record. -/
structure Quota where
  used : Nat
  limit : Nat
  deriving DecidableEq, Repr

/-- Entry of `CACHE.userQuotas`: `{ data, timestamp }`. -/
structure QuotaEntry where
  data : Quota
  timestamp : Nat
  deriving DecidableEq, Repr

/-- Entry of `CACHE.systemStats`: `{ value, timestamp }`. -/
structure StatEntry where
  value : Nat
  timestamp : Nat
  deriving DecidableEq, Repr

/-- The global `CACHE` object of `cacheHelper.js`. -/
structure CacheState where
  tableStructures : List (String × TSEntry)
  mailboxIds : List (String × MIdEntry)
  userQuotas : List (Nat × QuotaEntry)
  systemStats : List (String × StatEntry)
  lastClearTime : Nat
  deriving DecidableEq, Repr

/-- The freshly initialised `CACHE` (`lastClearTime: Date.now()` at module
load, here the explicit parameter `t0`). -/
def initialCache (t0 : Nat) : CacheState :=
  { tableStructures := [], mailboxIds := [], userQuotas := [], systemStats := [],
    lastClearTime := t0 }

/-- `CACHE_TTL.tableStructure = 60 * 60 * 1000`. -/
def CACHE_TTL_tableStructure : Nat := 60 * 60 * 1000

/-- `CACHE_TTL.mailboxId = 10 * 60 * 1000`. -/
def CACHE_TTL_mailboxId : Nat := 10 * 60 * 1000

/-- `CACHE_TTL.userQuota = 5 * 60 * 1000`. -/
def CACHE_TTL_userQuota : Nat := 5 * 60 * 1000

/-- `CACHE_TTL.systemStats = 10 * 60 * 1000`. -/
def CACHE_TTL_systemStats : Nat := 10 * 60 * 1000

/-- `CACHE_TTL.clearInterval = 30 * 60 * 1000`. -/
def CACHE_TTL_clearInterval : Nat := 30 * 60 * 1000

/-- `String.prototype.toLowerCase`, character by character. -/
def lowerString (s : String) : String :=
  String.mk (s.data.map Char.toLower)

/-- `String.prototype.trim`: drop leading and trailing whitespace. -/
def trimString (s : String) : String :=
  String.mk
    (((s.data.dropWhile Char.isWhitespace).reverse.dropWhile
        Char.isWhitespace).reverse)

/-- `String(address || '').trim().toLowerCase()` — the key normalisation the
mailbox-id functions apply themselves (a `null` address is modelled by `""`,
which is what `String(address || '')` turns it into). -/
def normalizeAddr (address : String) : String :=
  lowerString (trimString address)

/-- JS truthiness of the `id` argument of `updateMailboxIdCache`
(`!id` is true for `null` and for `0`). -/
def idFalsy : Option Nat → Bool
  | none => true
  | some n => n == 0

/-- The load-and-populate tail of `getCachedTableStructure`: the
`try { PRAGMA ... } catch (e) { return [] }` block. On success the mapped
columns are cached and returned; on a db error the exception is swallowed,
nothing is cached, and `[]` is returned. -/
def tableStructureLoad {E : Type} (db : String → Except E (List Row))
    (tableName : String) (now : Nat) (st : CacheState) : List Col × CacheState :=
  match db tableName with
  | Except.ok rows =>
    let cols := rows.map mapRow
    let ts := mset st.tableStructures tableName { data := cols, timestamp := now }
    (cols, { st with tableStructures := ts })
  | Except.error _ => ([], st)

/-- `getCachedTableStructure(db, tableName)` at time `now`. -/
def getCachedTableStructure {E : Type} (db : String → Except E (List Row))
    (tableName : String) (now : Nat) (st : CacheState) : List Col × CacheState :=
  match mget st.tableStructures tableName with
  | some cached =>
    if now - cached.timestamp < CACHE_TTL_tableStructure then (cached.data, st)
    else tableStructureLoad db tableName now st
  | none => tableStructureLoad db tableName now st

/-- The db branch of `getCachedMailboxId`: `SELECT id FROM mailboxes ...`
(the db yields `some id` or `null`, or throws), then cache the result —
`null` included — with a fresh timestamp. A thrown error propagates before
any cache write. -/
def mailboxIdLoad {E : Type} (db : String → Except E (Option Nat))
    (normalized : String) (now : Nat) (st : CacheState) :
    Except E (Option Nat × CacheState) :=
  match db normalized with
  | Except.error e => Except.error e
  | Except.ok id =>
    let mi := mset st.mailboxIds normalized { id := id, timestamp := now }
    Except.ok (id, { st with mailboxIds := mi })

/-- `getCachedMailboxId(db, address)` at time `now`. An address that is empty
after normalisation short-circuits to `null` before any cache or db access. -/
def getCachedMailboxId {E : Type} (db : String → Except E (Option Nat))
    (address : String) (now : Nat) (st : CacheState) :
    Except E (Option Nat × CacheState) :=
  let normalized := normalizeAddr address
  if normalized = "" then Except.ok (none, st)
  else
    match mget st.mailboxIds normalized with
    | some cached =>
      if now - cached.timestamp < CACHE_TTL_mailboxId then
        Except.ok (cached.id, st)
      else mailboxIdLoad db normalized now st
    | none => mailboxIdLoad db normalized now st

/-- `updateMailboxIdCache(address, id)` at time `now`:
`if (!normalized || !id) return;` then an unconditional `Map.set`. -/
def updateMailboxIdCache (address : String) (id : Option Nat) (now : Nat)
    (st : CacheState) : CacheState :=
  let normalized := normalizeAddr address
  if normalized = "" ∨ idFalsy id then st
  else
    let mi := mset st.mailboxIds normalized { id := id, timestamp := now }
    { st with mailboxIds := mi }

/-- `invalidateMailboxCache(address)`. -/
def invalidateMailboxCache (address : String) (st : CacheState) : CacheState :=
  { st with mailboxIds := mdelete st.mailboxIds (normalizeAddr address) }

/-- The db branch of `getCachedUserQuota`: the `mailbox_limit` query
(`?? 10` on a missing row), then the `COUNT(1)` query (`|| 0` on a missing
row), then cache `{used, limit}`. Either query throwing propagates before
any cache write. -/
def userQuotaLoad {E : Type} (dbLimit : Nat → Except E (Option Nat))
    (dbCount : Nat → Except E (Option Nat)) (userId : Nat) (now : Nat)
    (st : CacheState) : Except E (Quota × CacheState) :=
  match dbLimit userId with
  | Except.error e => Except.error e
  | Except.ok lim =>
    let limit := lim.getD 10
    match dbCount userId with
    | Except.error e => Except.error e
    | Except.ok cnt =>
      let used := cnt.getD 0
      let data : Quota := { used := used, limit := limit }
      let uq := mset st.userQuotas userId { data := data, timestamp := now }
      Except.ok (data, { st with userQuotas := uq })

/-- `getCachedUserQuota(db, userId)` at time `now`. -/
def getCachedUserQuota {E : Type} (dbLimit : Nat → Except E (Option Nat))
    (dbCount : Nat → Except E (Option Nat)) (userId : Nat) (now : Nat)
    (st : CacheState) : Except E (Quota × CacheState) :=
  match mget st.userQuotas userId with
  | some cached =>
    if now - cached.timestamp < CACHE_TTL_userQuota then
      Except.ok (cached.data, st)
    else userQuotaLoad dbLimit dbCount userId now st
  | none => userQuotaLoad dbLimit dbCount userId now st

/-- `invalidateUserQuotaCache(userId)`. -/
def invalidateUserQuotaCache (userId : Nat) (st : CacheState) : CacheState :=
  { st with userQuotas := mdelete st.userQuotas userId }

/-- The query branch of `getCachedSystemStat`: `await queryFn(db)` (no
`try`/`catch`, so an error propagates before any cache write), then cache the
value. -/
def systemStatLoad {E : Type} (queryFn : Except E Nat) (statKey : String)
    (now : Nat) (st : CacheState) : Except E (Nat × CacheState) :=
  match queryFn with
  | Except.error e => Except.error e
  | Except.ok value =>
    let ss := mset st.systemStats statKey { value := value, timestamp := now }
    Except.ok (value, { st with systemStats := ss })

/-- `getCachedSystemStat(db, statKey, queryFn)` at time `now` (the opaque
`db` argument is absorbed into `queryFn`). -/
def getCachedSystemStat {E : Type} (queryFn : Except E Nat) (statKey : String)
    (now : Nat) (st : CacheState) : Except E (Nat × CacheState) :=
  match mget st.systemStats statKey with
  | some cached =>
    if now - cached.timestamp < CACHE_TTL_systemStats then
      Except.ok (cached.value, st)
    else systemStatLoad queryFn statKey now st
  | none => systemStatLoad queryFn statKey now st

/-- The body of `clearExpiredCache` past its rate-limit gate: set
`lastClearTime = now` and drop every entry of `mailboxIds`, `userQuotas` and
`systemStats` whose age strictly exceeds its namespace TTL.
`tableStructures` has no sweep loop in the source. -/
def sweepAllNamespaces (now : Nat) (st : CacheState) : CacheState :=
  { st with
    lastClearTime := now,
    mailboxIds := st.mailboxIds.filter
      (fun p => !decide (now - p.2.timestamp > CACHE_TTL_mailboxId)),
    userQuotas := st.userQuotas.filter
      (fun p => !decide (now - p.2.timestamp > CACHE_TTL_userQuota)),
    systemStats := st.systemStats.filter
      (fun p => !decide (now - p.2.timestamp > CACHE_TTL_systemStats)) }

/-- `clearExpiredCache()` at time `now`:
`if (now - CACHE.lastClearTime < CACHE_TTL.clearInterval) return;` then the
sweep. -/
def clearExpiredCache (now : Nat) (st : CacheState) : CacheState :=
  if now - st.lastClearTime < CACHE_TTL_clearInterval then st
  else sweepAllNamespaces now st

/-- An entry of the `LRUCache` class's `Map`: `{ value, timestamp }`. -/
structure LRUEntry (V : Type) where
  value : V
  timestamp : Nat
  deriving DecidableEq, Repr

/-- The `LRUCache` class: `capacity`, `ttl`, and the insertion-ordered `Map`
(oldest entry first, most recently touched entry last). -/
structure LRUCache (V : Type) where
  capacity : Nat
  ttl : Nat
  cache : List (String × LRUEntry V)
  deriving DecidableEq, Repr

/-- `new LRUCache(capacity, ttl)`. -/
def LRUCache.empty (V : Type) (capacity ttl : Nat) : LRUCache V :=
  { capacity := capacity, ttl := ttl, cache := [] }

/-- `LRUCache.prototype.size()`. -/
def LRUCache.size {V : Type} (c : LRUCache V) : Nat :=
  c.cache.length

/-- `LRUCache.prototype.get(key)` at time `now`: `null` on a missing key; an
expired entry is deleted and `null` returned; a live hit is re-inserted at the
end of the `Map` (recency bump) and its value returned. Returns the value
alongside the updated store. -/
def LRUCache.get {V : Type} (c : LRUCache V) (now : Nat) (key : String) :
    Option V × LRUCache V :=
  match mget c.cache key with
  | none => (none, c)
  | some item =>
    if now - item.timestamp > c.ttl then
      (none, { c with cache := mdelete c.cache key })
    else
      let bumped := mset (mdelete c.cache key) key item
      (some item.value, { c with cache := bumped })

/-- `LRUCache.prototype.set(key, value)` at time `now`: delete an existing
`key` first; if still at capacity, delete the first key of the `Map` (on an
empty `Map`, `firstKey` is `undefined` and the delete is a no-op); then insert
the fresh entry at the end. -/
def LRUCache.set {V : Type} (c : LRUCache V) (now : Nat) (key : String)
    (value : V) : LRUCache V :=
  let c1 := match mget c.cache key with
    | some _ => mdelete c.cache key
    | none => c.cache
  let c2 := if c1.length ≥ c.capacity then
      match c1.head? with
      | some fk => mdelete c1 fk.1
      | none => c1
    else c1
  { c with cache := mset c2 key { value := value, timestamp := now } }

/-- `LRUCache.prototype.delete(key)`. -/
def LRUCache.del {V : Type} (c : LRUCache V) (key : String) : LRUCache V :=
  { c with cache := mdelete c.cache key }

/-- `LRUCache.prototype.clear()`. -/
def LRUCache.clear {V : Type} (c : LRUCache V) : LRUCache V :=
  { c with cache := [] }

/-- One call against an `LRUCache`: a timestamped `set` or `get`. -/
inductive LRUOp (V : Type) where
  | set (now : Nat) (key : String) (value : V)
  | get (now : Nat) (key : String)

/-- Run a sequence of `set`/`get` calls against an `LRUCache`. -/
def LRUCache.run {V : Type} (c : LRUCache V) : List (LRUOp V) → LRUCache V
  | [] => c
  | (LRUOp.set now k v) :: rest => (c.set now k v).run rest
  | (LRUOp.get now k) :: rest => ((c.get now k).2).run rest

/-! ## Association-list lemmas about the `Map` model -/

theorem CMap.mget_mset_self {K E : Type} [DecidableEq K] (m : List (K × E))
    (k : K) (e : E) : mget (mset m k e) k = some e := by
  induction m with
  | nil => simp [mget, mset]
  | cons p rest ih =>
    obtain ⟨k0, e0⟩ := p
    by_cases h : k0 = k
    · simp [mset, h, mget]
    · simp [mset, h, mget, ih]

theorem CMap.mget_mset_ne {K E : Type} [DecidableEq K] (m : List (K × E))
    {k k' : K} (e : E) (h : k' ≠ k) : mget (mset m k e) k' = mget m k' := by
  have hks : k ≠ k' := Ne.symm h
  induction m with
  | nil => simp [mget, mset, hks]
  | cons p rest ih =>
    obtain ⟨k0, e0⟩ := p
    by_cases h0 : k0 = k
    · subst h0
      simp [mset, mget, hks]
    · simp [mset, h0, mget, ih]

theorem CMap.mset_eq_append {K E : Type} [DecidableEq K] {m : List (K × E)}
    {k : K} (e : E) (h : mget m k = none) : mset m k e = m ++ [(k, e)] := by
  induction m with
  | nil => simp [mset]
  | cons p rest ih =>
    obtain ⟨k0, e0⟩ := p
    by_cases h0 : k0 = k
    · simp [mget, h0] at h
    · simp [mget, h0] at h
      simp [mset, h0, ih h]

theorem CMap.mget_mdelete_self {K E : Type} [DecidableEq K] (m : List (K × E))
    (k : K) : mget (mdelete m k) k = none := by
  induction m with
  | nil => simp [mget, mdelete]
  | cons p rest ih =>
    obtain ⟨k0, e0⟩ := p
    by_cases h0 : k0 = k
    · simp [mdelete, h0, ih]
    · simp [mdelete, h0, mget, ih]

theorem CMap.mget_mdelete_ne {K E : Type} [DecidableEq K] (m : List (K × E))
    {k k' : K} (h : k' ≠ k) : mget (mdelete m k) k' = mget m k' := by
  induction m with
  | nil => simp [mget, mdelete]
  | cons p rest ih =>
    obtain ⟨k0, e0⟩ := p
    by_cases h0 : k0 = k
    · subst h0
      simp [mdelete, mget, Ne.symm h, ih]
    · by_cases h1 : k0 = k'
      · subst h1
        simp [mdelete, h0, mget, h]
      · simp [mdelete, h0, mget, h1, ih]

theorem CMap.mget_mdelete_none {K E : Type} [DecidableEq K] (m : List (K × E))
    {k : K} (k' : K) (h : mget m k = none) : mget (mdelete m k') k = none := by
  induction m with
  | nil => simp [mget, mdelete]
  | cons p rest ih =>
    obtain ⟨k0, e0⟩ := p
    by_cases h0 : k0 = k
    · simp [mget, h0] at h
    · simp [mget, h0] at h
      by_cases h1 : k0 = k'
      · simp [mdelete, h1, ih h]
      · simp [mdelete, h1, mget, h0, ih h]

theorem CMap.mdelete_eq_of_none {K E : Type} [DecidableEq K] {m : List (K × E)}
    {k : K} (h : mget m k = none) : mdelete m k = m := by
  induction m with
  | nil => simp [mdelete]
  | cons p rest ih =>
    obtain ⟨k0, e0⟩ := p
    by_cases h0 : k0 = k
    · simp [mget, h0] at h
    · simp [mget, h0] at h
      simp [mdelete, h0, ih h]

theorem CMap.length_mdelete_le {K E : Type} [DecidableEq K] (m : List (K × E))
    (k : K) : (mdelete m k).length ≤ m.length := by
  induction m with
  | nil => simp [mdelete]
  | cons p rest ih =>
    obtain ⟨k0, e0⟩ := p
    by_cases h0 : k0 = k
    · simp [mdelete, h0]
      omega
    · simp [mdelete, h0]
      omega

theorem CMap.length_mdelete_lt {K E : Type} [DecidableEq K] {m : List (K × E)}
    {k : K} (h : (mget m k).isSome) : (mdelete m k).length < m.length := by
  induction m with
  | nil => simp [mget] at h
  | cons p rest ih =>
    obtain ⟨k0, e0⟩ := p
    by_cases h0 : k0 = k
    · simp [mdelete, h0]
      have := length_mdelete_le rest k
      omega
    · simp [mget, h0] at h
      simp [mdelete, h0]
      have := ih h
      omega

theorem CMap.length_mset_none {K E : Type} [DecidableEq K] {m : List (K × E)}
    {k : K} (e : E) (h : mget m k = none) :
    (mset m k e).length = m.length + 1 := by
  rw [mset_eq_append e h]
  simp

theorem CMap.mget_head {K E : Type} [DecidableEq K] {m : List (K × E)}
    {p : K × E} (h : m.head? = some p) : mget m p.1 = some p.2 := by
  cases m with
  | nil => simp at h
  | cons q rest =>
    obtain ⟨k0, e0⟩ := q
    simp at h
    subst h
    simp [mget]

theorem CMap.mdelete_eq_filter {K E : Type} [DecidableEq K] (m : List (K × E))
    (k : K) : mdelete m k = m.filter (fun p => !decide (p.1 = k)) := by
  induction m with
  | nil => rfl
  | cons q rest ih =>
    obtain ⟨k0, e0⟩ := q
    by_cases h0 : k0 = k
    · simp [mdelete, h0, List.filter, ih]
    · simp [mdelete, h0, List.filter, ih]

theorem CMap.mem_mdelete_iff {K E : Type} [DecidableEq K] (m : List (K × E))
    (k : K) (p : K × E) : p ∈ mdelete m k ↔ p ∈ m ∧ p.1 ≠ k := by
  rw [mdelete_eq_filter]
  simp [List.mem_filter]

theorem CMap.mget_eq_none_of_not_mem {K E : Type} [DecidableEq K]
    {m : List (K × E)} {k : K} (h : k ∉ m.map Prod.fst) : mget m k = none := by
  induction m with
  | nil => rfl
  | cons q rest ih =>
    obtain ⟨k0, e0⟩ := q
    have h1 : k0 ≠ k := by
      intro hh
      exact h (by simp [hh])
    have h2 : k ∉ rest.map Prod.fst := by
      intro hh
      exact h (by simp [hh])
    simp [mget, h1, ih h2]

theorem CMap.mdelete_head_nodup {K E : Type} [DecidableEq K]
    {m : List (K × E)} {p : K × E} (hnd : (m.map Prod.fst).Nodup)
    (h : m.head? = some p) : mdelete m p.1 = m.tail := by
  cases m with
  | nil => simp at h
  | cons q rest =>
    obtain ⟨k0, e0⟩ := q
    simp at h
    subst h
    rw [List.map_cons] at hnd
    have hnotin : k0 ∉ rest.map Prod.fst := (List.nodup_cons.mp hnd).1
    have hnone : mget rest k0 = none := mget_eq_none_of_not_mem hnotin
    simp [mdelete]
    exact mdelete_eq_of_none hnone

/-! ## Claim theorems -/

/-- Claim C9: for every malformed key (an address that is empty, or empty
after trimming — a `null` address reaches the function as the empty string),
`getCachedMailboxId` short-circuits before any cache or db access: it returns
`null` for every loader, and the cache state is unchanged, so no entry keyed
on the empty string is ever created. -/
theorem C9_malformed_key_short_circuit {E : Type}
    (db : String → Except E (Option Nat)) (address : String) (now : Nat)
    (st : CacheState) (h : normalizeAddr address = "") :
    getCachedMailboxId db address now st = Except.ok (none, st) := by
  simp [getCachedMailboxId, h]

/-- Witness for C9 at the all-whitespace address `"   "`. -/
theorem C9_malformed_key_short_circuit_witness :
    getCachedMailboxId (fun _ => (Except.ok (some 1) : Except Unit (Option Nat)))
      "   " 5 (initialCache 0) = Except.ok (none, initialCache 0) :=
  C9_malformed_key_short_circuit _ "   " 5 (initialCache 0) (by decide)

/-- Claim C8: negative results are cached like positive ones. If the loader
reports "not found" (`null`) on a first `getCachedMailboxId` of a key that is
not in the cache, the negative entry is stored, and a second call within the
TTL window returns the cached `null` for EVERY loader `db2` (even one over a
different error type), i.e. without consulting the backing store again. -/
theorem C8_negative_result_cached {E1 E2 : Type}
    (db1 : String → Except E1 (Option Nat))
    (db2 : String → Except E2 (Option Nat)) (address : String) (now d : Nat)
    (st : CacheState) (hne : normalizeAddr address ≠ "")
    (hmiss : mget st.mailboxIds (normalizeAddr address) = none)
    (hdb : db1 (normalizeAddr address) = Except.ok none)
    (hd : d < CACHE_TTL_mailboxId) :
    getCachedMailboxId db1 address now st
      = Except.ok (none, { st with mailboxIds := mset st.mailboxIds (normalizeAddr address) { id := none, timestamp := now } })
    ∧ getCachedMailboxId db2 address (now + d) { st with mailboxIds := mset st.mailboxIds (normalizeAddr address) { id := none, timestamp := now } }
      = Except.ok (none, { st with mailboxIds := mset st.mailboxIds (normalizeAddr address) { id := none, timestamp := now } }) := by
  constructor
  · simp [getCachedMailboxId, hne, hmiss, mailboxIdLoad, hdb]
  · simp [getCachedMailboxId, hne, mget_mset_self, Nat.add_sub_cancel_left, hd]

/-- Witness for C8: a loader that answers `null` for `"a@x.com"`, followed by
a second lookup one millisecond later against a loader with a different error
type. -/
theorem C8_negative_result_cached_witness :
    getCachedMailboxId (fun _ => (Except.ok none : Except Unit (Option Nat)))
        "a@x.com" 3 (initialCache 0)
      = Except.ok (none, { initialCache 0 with mailboxIds := mset [] (normalizeAddr "a@x.com") { id := none, timestamp := 3 } })
    ∧ getCachedMailboxId (fun _ => (Except.error "down" : Except String (Option Nat)))
        "a@x.com" (3 + 1) { initialCache 0 with mailboxIds := mset [] (normalizeAddr "a@x.com") { id := none, timestamp := 3 } }
      = Except.ok (none, { initialCache 0 with mailboxIds := mset [] (normalizeAddr "a@x.com") { id := none, timestamp := 3 } }) :=
  C8_negative_result_cached _ _ "a@x.com" 3 1 (initialCache 0) (by decide)
    (by decide) rfl (by decide)

/-- Claim C7: for every namespace with TTL `T`, a value cached at time `t0`
(by an explicit set or a successful load) is served by a read at `t0 + d` for
every `d < T` — for EVERY loader, i.e. without consulting the backing store —
and is treated as absent for every `d ≥ T` (boundary `d = T` included), in
which case the loader is re-invoked and its fresh result cached. Stated for
all four namespaces: address-to-identifier, per-user quota, named statistic,
and schema columns. -/
theorem C7_ttl_expiry_boundary :
    (∀ (E : Type) (db : String → Except E (Option Nat)) (address : String)
        (t0 d : Nat) (st : CacheState) (i : Option Nat),
      normalizeAddr address ≠ "" →
      mget st.mailboxIds (normalizeAddr address) = some { id := i, timestamp := t0 } →
      d < CACHE_TTL_mailboxId →
      getCachedMailboxId db address (t0 + d) st = Except.ok (i, st))
  ∧ (∀ (E : Type) (address : String) (t0 d : Nat) (st : CacheState)
        (i i' : Option Nat),
      normalizeAddr address ≠ "" →
      mget st.mailboxIds (normalizeAddr address) = some { id := i, timestamp := t0 } →
      CACHE_TTL_mailboxId ≤ d →
      getCachedMailboxId (fun _ => (Except.ok i' : Except E (Option Nat))) address (t0 + d) st
        = Except.ok (i', { st with mailboxIds := mset st.mailboxIds (normalizeAddr address) { id := i', timestamp := t0 + d } }))
  ∧ (∀ (E : Type) (dbLimit dbCount : Nat → Except E (Option Nat))
        (userId t0 d : Nat) (st : CacheState) (q : Quota),
      mget st.userQuotas userId = some { data := q, timestamp := t0 } →
      d < CACHE_TTL_userQuota →
      getCachedUserQuota dbLimit dbCount userId t0 st = Except.ok (q, st)
        ∧ getCachedUserQuota dbLimit dbCount userId (t0 + d) st = Except.ok (q, st))
  ∧ (∀ (E : Type) (userId t0 d : Nat) (st : CacheState) (q : Quota) (l u : Nat),
      mget st.userQuotas userId = some { data := q, timestamp := t0 } →
      CACHE_TTL_userQuota ≤ d →
      getCachedUserQuota (fun _ => (Except.ok (some l) : Except E (Option Nat)))
          (fun _ => Except.ok (some u)) userId (t0 + d) st
        = Except.ok ({ used := u, limit := l }, { st with userQuotas := mset st.userQuotas userId { data := { used := u, limit := l }, timestamp := t0 + d } }))
  ∧ (∀ (E : Type) (queryFn : Except E Nat) (statKey : String) (t0 d : Nat)
        (st : CacheState) (v : Nat),
      mget st.systemStats statKey = some { value := v, timestamp := t0 } →
      d < CACHE_TTL_systemStats →
      getCachedSystemStat queryFn statKey (t0 + d) st = Except.ok (v, st))
  ∧ (∀ (E : Type) (statKey : String) (t0 d : Nat) (st : CacheState) (v v' : Nat),
      mget st.systemStats statKey = some { value := v, timestamp := t0 } →
      CACHE_TTL_systemStats ≤ d →
      getCachedSystemStat (Except.ok v' : Except E Nat) statKey (t0 + d) st
        = Except.ok (v', { st with systemStats := mset st.systemStats statKey { value := v', timestamp := t0 + d } }))
  ∧ (∀ (E : Type) (db : String → Except E (List Row)) (tableName : String)
        (t0 d : Nat) (st : CacheState) (cols : List Col),
      mget st.tableStructures tableName = some { data := cols, timestamp := t0 } →
      d < CACHE_TTL_tableStructure →
      getCachedTableStructure db tableName (t0 + d) st = (cols, st))
  ∧ (∀ (E : Type) (tableName : String) (t0 d : Nat) (st : CacheState)
        (cols : List Col) (rows : List Row),
      mget st.tableStructures tableName = some { data := cols, timestamp := t0 } →
      CACHE_TTL_tableStructure ≤ d →
      getCachedTableStructure (fun _ => (Except.ok rows : Except E (List Row))) tableName (t0 + d) st
        = (rows.map mapRow, { st with tableStructures := mset st.tableStructures tableName { data := rows.map mapRow, timestamp := t0 + d } })) := by
  refine ⟨?_, ?_, ?_, ?_, ?_, ?_, ?_, ?_⟩
  · intro E db address t0 d st i hne hmem hd
    simp [getCachedMailboxId, hne, hmem, Nat.add_sub_cancel_left, hd]
  · intro E address t0 d st i i' hne hmem hd
    simp [getCachedMailboxId, hne, hmem, Nat.add_sub_cancel_left,
      Nat.not_lt.mpr hd, mailboxIdLoad]
  · intro E dbLimit dbCount userId t0 d st q hmem hd
    constructor
    · simp [getCachedUserQuota, hmem, Nat.sub_self, CACHE_TTL_userQuota]
    · simp [getCachedUserQuota, hmem, Nat.add_sub_cancel_left, hd]
  · intro E userId t0 d st q l u hmem hd
    simp [getCachedUserQuota, hmem, Nat.add_sub_cancel_left,
      Nat.not_lt.mpr hd, userQuotaLoad]
  · intro E queryFn statKey t0 d st v hmem hd
    simp [getCachedSystemStat, hmem, Nat.add_sub_cancel_left, hd]
  · intro E statKey t0 d st v v' hmem hd
    simp [getCachedSystemStat, hmem, Nat.add_sub_cancel_left,
      Nat.not_lt.mpr hd, systemStatLoad]
  · intro E db tableName t0 d st cols hmem hd
    simp [getCachedTableStructure, hmem, Nat.add_sub_cancel_left, hd]
  · intro E tableName t0 d st cols rows hmem hd
    simp [getCachedTableStructure, hmem, Nat.add_sub_cancel_left,
      Nat.not_lt.mpr hd, tableStructureLoad]

/-- Witness for C7 on the mailbox-id namespace: a hit one millisecond before
the TTL, and a forced reload exactly at the boundary `d = T`. -/
theorem C7_ttl_expiry_boundary_witness :
    getCachedMailboxId (fun _ => (Except.error "nodb" : Except String (Option Nat)))
        "a@x.com" (0 + (CACHE_TTL_mailboxId - 1)) { initialCache 0 with mailboxIds := [("a@x.com", { id := some 7, timestamp := 0 })] }
      = Except.ok (some 7, { initialCache 0 with mailboxIds := [("a@x.com", { id := some 7, timestamp := 0 })] })
    ∧ getCachedMailboxId (fun _ => (Except.ok (some 9) : Except Unit (Option Nat)))
        "a@x.com" (0 + CACHE_TTL_mailboxId) { initialCache 0 with mailboxIds := [("a@x.com", { id := some 7, timestamp := 0 })] }
      = Except.ok (some 9, { initialCache 0 with mailboxIds := [("a@x.com", { id := some 9, timestamp := 0 + CACHE_TTL_mailboxId })] }) := by
  constructor
  · exact C7_ttl_expiry_boundary.1 String _ "a@x.com" 0 (CACHE_TTL_mailboxId - 1)
      _ (some 7) (by decide) (by decide) (by decide)
  · exact C7_ttl_expiry_boundary.2.1 Unit "a@x.com" 0 CACHE_TTL_mailboxId
      _ (some 7) (some 9) (by decide) (by decide) (by decide)

/-- The rate-limit gate of `clearExpiredCache` fires (the sweep body runs) at
time `now` iff `now - CACHE.lastClearTime` is at least the clear interval. -/
def sweepRan (now : Nat) (st : CacheState) : Prop :=
  CACHE_TTL_clearInterval ≤ now - st.lastClearTime

instance (now : Nat) (st : CacheState) : Decidable (sweepRan now st) :=
  inferInstanceAs (Decidable (CACHE_TTL_clearInterval ≤ now - st.lastClearTime))

/-- Claim C6: for every pair of sweep invocations at `t1` and `t2` with
`t2 - t1 < minInterval`, where the sweep actually ran at `t1`, the second
invocation is a no-op; across any such pair the sweep body runs at most once;
and an invocation at `t3` with `t3 - lastSweepAt ≥ minInterval` updates
`lastSweepAt` to `t3` and runs the sweep. -/
theorem C6_sweep_rate_limiting :
    (∀ (st : CacheState) (t1 t2 : Nat), sweepRan t1 st →
      t2 - t1 < CACHE_TTL_clearInterval →
      clearExpiredCache t2 (clearExpiredCache t1 st) = clearExpiredCache t1 st)
  ∧ (∀ (st : CacheState) (t1 t2 : Nat), t2 - t1 < CACHE_TTL_clearInterval →
      ¬ (sweepRan t1 st ∧ sweepRan t2 (clearExpiredCache t1 st)))
  ∧ (∀ (st : CacheState) (t3 : Nat), sweepRan t3 st →
      clearExpiredCache t3 st = sweepAllNamespaces t3 st
        ∧ (clearExpiredCache t3 st).lastClearTime = t3) := by
  have hrun : ∀ (st : CacheState) (t : Nat), sweepRan t st →
      clearExpiredCache t st = sweepAllNamespaces t st := by
    intro st t h
    unfold sweepRan at h
    simp [clearExpiredCache, Nat.not_lt.mpr h]
  refine ⟨?_, ?_, ?_⟩
  · intro st t1 t2 h1 h2
    rw [hrun st t1 h1]
    have hlast : (sweepAllNamespaces t1 st).lastClearTime = t1 := rfl
    simp [clearExpiredCache, hlast, h2]
  · intro st t1 t2 h2 hboth
    obtain ⟨h1, h1'⟩ := hboth
    rw [hrun st t1 h1] at h1'
    unfold sweepRan at h1'
    have hlast : (sweepAllNamespaces t1 st).lastClearTime = t1 := rfl
    rw [hlast] at h1'
    omega
  · intro st t3 h3
    refine ⟨hrun st t3 h3, ?_⟩
    rw [hrun st t3 h3]
    rfl

/-- Witness for C6: `lastClearTime = 0`, a sweep runs at `t1 = 1800000`
(exactly the 30-minute interval), and a second invocation at
`t2 = 1800001` is a no-op. -/
theorem C6_sweep_rate_limiting_witness :
    clearExpiredCache 1800001 (clearExpiredCache 1800000 (initialCache 0))
      = clearExpiredCache 1800000 (initialCache 0)
    ∧ (clearExpiredCache 1800000 (initialCache 0)).lastClearTime = 1800000 := by
  constructor
  · exact C6_sweep_rate_limiting.1 (initialCache 0) 1800000 1800001 (by decide)
      (by decide)
  · exact (C6_sweep_rate_limiting.2.2 (initialCache 0) 1800000 (by decide)).2

/-- Counterexample to claim C1. The claim says a loader failure is propagated
unchanged and never masked as a success value "for every namespace, including
the table-structure (schema-columns) namespace". But `getCachedTableStructure`
wraps its db read in `try { ... } catch (e) { ... return []; }`: on a db
error it swallows the exception and returns the empty column list — a masked
success — instead of propagating. Here the loader always throws, yet the call
returns `([], st)` rather than an error. -/
theorem C1_counterexample :
    getCachedTableStructure
        (fun _ => (Except.error "db unavailable" : Except String (List Row)))
        "messages" 5 (initialCache 0)
      = ([], initialCache 0) := by
  decide

/-- Claim C1 as amended: for the three namespaces whose loads are not wrapped
in `try`/`catch` (address-to-identifier, per-user quota, named statistic), a
loader failure on a miss or stale entry is propagated unchanged and no cache
entry is recorded (the failure aborts before the cache write, so no state is
produced at all); the table-structure namespace instead catches the error,
records no cache entry, and returns the empty column list. -/
theorem C1_loader_failure_amended :
    (∀ (E : Type) (db : String → Except E (Option Nat)) (address : String)
        (now : Nat) (st : CacheState) (err : E),
      normalizeAddr address ≠ "" →
      (∀ c, mget st.mailboxIds (normalizeAddr address) = some c →
        ¬ now - c.timestamp < CACHE_TTL_mailboxId) →
      db (normalizeAddr address) = Except.error err →
      getCachedMailboxId db address now st = Except.error err)
  ∧ (∀ (E : Type) (dbLimit dbCount : Nat → Except E (Option Nat))
        (userId now : Nat) (st : CacheState) (err : E),
      (∀ c, mget st.userQuotas userId = some c →
        ¬ now - c.timestamp < CACHE_TTL_userQuota) →
      dbLimit userId = Except.error err →
      getCachedUserQuota dbLimit dbCount userId now st = Except.error err)
  ∧ (∀ (E : Type) (lim : Option Nat) (dbCount : Nat → Except E (Option Nat))
        (userId now : Nat) (st : CacheState) (err : E),
      (∀ c, mget st.userQuotas userId = some c →
        ¬ now - c.timestamp < CACHE_TTL_userQuota) →
      dbCount userId = Except.error err →
      getCachedUserQuota (fun _ => Except.ok lim) dbCount userId now st
        = Except.error err)
  ∧ (∀ (E : Type) (statKey : String) (now : Nat) (st : CacheState) (err : E),
      (∀ c, mget st.systemStats statKey = some c →
        ¬ now - c.timestamp < CACHE_TTL_systemStats) →
      getCachedSystemStat (Except.error err) statKey now st = Except.error err)
  ∧ (∀ (E : Type) (db : String → Except E (List Row)) (tableName : String)
        (now : Nat) (st : CacheState) (err : E),
      (∀ c, mget st.tableStructures tableName = some c →
        ¬ now - c.timestamp < CACHE_TTL_tableStructure) →
      db tableName = Except.error err →
      getCachedTableStructure db tableName now st = ([], st)) := by
  refine ⟨?_, ?_, ?_, ?_, ?_⟩
  · intro E db address now st err hne hstale hdb
    cases hm : mget st.mailboxIds (normalizeAddr address) with
    | none => simp [getCachedMailboxId, hne, hm, mailboxIdLoad, hdb]
    | some c => simp [getCachedMailboxId, hne, hm, hstale c hm, mailboxIdLoad, hdb]
  · intro E dbLimit dbCount userId now st err hstale hdb
    cases hm : mget st.userQuotas userId with
    | none => simp [getCachedUserQuota, hm, userQuotaLoad, hdb]
    | some c => simp [getCachedUserQuota, hm, hstale c hm, userQuotaLoad, hdb]
  · intro E lim dbCount userId now st err hstale hdb
    cases hm : mget st.userQuotas userId with
    | none => simp [getCachedUserQuota, hm, userQuotaLoad, hdb]
    | some c => simp [getCachedUserQuota, hm, hstale c hm, userQuotaLoad, hdb]
  · intro E statKey now st err hstale
    cases hm : mget st.systemStats statKey with
    | none => simp [getCachedSystemStat, hm, systemStatLoad]
    | some c => simp [getCachedSystemStat, hm, hstale c hm, systemStatLoad]
  · intro E db tableName now st err hstale hdb
    cases hm : mget st.tableStructures tableName with
    | none => simp [getCachedTableStructure, hm, tableStructureLoad, hdb]
    | some c => simp [getCachedTableStructure, hm, hstale c hm, tableStructureLoad, hdb]

/-- Witness for the amended C1 on the mailbox-id namespace: a throwing loader
on an empty cache propagates its error unchanged. -/
theorem C1_loader_failure_amended_witness :
    getCachedMailboxId
        (fun _ => (Except.error "boom" : Except String (Option Nat)))
        "a@x.com" 0 (initialCache 0)
      = Except.error "boom" :=
  C1_loader_failure_amended.1 String _ "a@x.com" 0 (initialCache 0) "boom"
    (by decide) (by intro c h; simp [CMap.mget, initialCache] at h) rfl

/-- Counterexample to claim C2. The claim says that when the gate allows a
sweep, expiry removal is applied to every one of the four namespaces,
including schema columns. But `clearExpiredCache` iterates only `mailboxIds`,
`userQuotas` and `systemStats`; here the gate allows the sweep
(`7200000 - 0 ≥ 1800000`), the single `tableStructures` entry is long expired
(`7200000 - 0 > 3600000`), yet it survives the sweep unchanged. -/
theorem C2_counterexample :
    (clearExpiredCache 7200000 { tableStructures := [("messages", { data := [], timestamp := 0 })], mailboxIds := [], userQuotas := [], systemStats := [], lastClearTime := 0 }).tableStructures
      = [("messages", { data := [], timestamp := 0 })]
    ∧ 7200000 - 0 > CACHE_TTL_tableStructure
    ∧ CACHE_TTL_clearInterval ≤ 7200000 - 0 := by
  refine ⟨by decide, by decide, by decide⟩

/-- Claim C2 as amended: when the gate allows a sweep
(`now - lastClearTime ≥ clearInterval`), the sweep pass applies expiry
removal to three of the four namespaces — address-to-identifier, per-user
quota and named statistic: an entry survives the sweep iff it was present
before and its age does not exceed that namespace's TTL. The schema-columns
(`tableStructures`) namespace is not swept at all. -/
theorem C2_sweep_three_namespaces (now : Nat) (st : CacheState)
    (hgate : CACHE_TTL_clearInterval ≤ now - st.lastClearTime) :
    clearExpiredCache now st = sweepAllNamespaces now st
    ∧ (∀ (k : String) (e : MIdEntry),
        (k, e) ∈ (clearExpiredCache now st).mailboxIds
          ↔ (k, e) ∈ st.mailboxIds ∧ ¬ now - e.timestamp > CACHE_TTL_mailboxId)
    ∧ (∀ (k : Nat) (e : QuotaEntry),
        (k, e) ∈ (clearExpiredCache now st).userQuotas
          ↔ (k, e) ∈ st.userQuotas ∧ ¬ now - e.timestamp > CACHE_TTL_userQuota)
    ∧ (∀ (k : String) (e : StatEntry),
        (k, e) ∈ (clearExpiredCache now st).systemStats
          ↔ (k, e) ∈ st.systemStats ∧ ¬ now - e.timestamp > CACHE_TTL_systemStats)
    ∧ (clearExpiredCache now st).tableStructures = st.tableStructures := by
  have hng : ¬ now - st.lastClearTime < CACHE_TTL_clearInterval :=
    Nat.not_lt.mpr hgate
  have hrw : clearExpiredCache now st = sweepAllNamespaces now st := by
    simp [clearExpiredCache, hng]
  refine ⟨hrw, ?_, ?_, ?_, ?_⟩
  · intro k e
    rw [hrw]
    simp [sweepAllNamespaces, List.mem_filter]
  · intro k e
    rw [hrw]
    simp [sweepAllNamespaces, List.mem_filter]
  · intro k e
    rw [hrw]
    simp [sweepAllNamespaces, List.mem_filter]
  · rw [hrw]
    rfl

/-- Witness for the amended C2: at `now = 1800000` over a state with one
fresh and one expired mailbox-id entry, the sweep runs, drops exactly the
expired entry, and leaves `tableStructures` untouched. -/
theorem C2_sweep_three_namespaces_witness :
    (clearExpiredCache 1800000 { tableStructures := [("messages", { data := [], timestamp := 0 })], mailboxIds := [("a@x.com", { id := some 1, timestamp := 0 }), ("b@x.com", { id := some 2, timestamp := 1500000 })], userQuotas := [], systemStats := [], lastClearTime := 0 }).tableStructures
      = [("messages", { data := [], timestamp := 0 })]
    ∧ (("b@x.com", ({ id := some 2, timestamp := 1500000 } : MIdEntry))
        ∈ (clearExpiredCache 1800000 { tableStructures := [("messages", { data := [], timestamp := 0 })], mailboxIds := [("a@x.com", { id := some 1, timestamp := 0 }), ("b@x.com", { id := some 2, timestamp := 1500000 })], userQuotas := [], systemStats := [], lastClearTime := 0 }).mailboxIds
      ∧ ¬ ("a@x.com", ({ id := some 1, timestamp := 0 } : MIdEntry))
        ∈ (clearExpiredCache 1800000 { tableStructures := [("messages", { data := [], timestamp := 0 })], mailboxIds := [("a@x.com", { id := some 1, timestamp := 0 }), ("b@x.com", { id := some 2, timestamp := 1500000 })], userQuotas := [], systemStats := [], lastClearTime := 0 }).mailboxIds) := by
  refine ⟨(C2_sweep_three_namespaces 1800000 _ (by decide)).2.2.2.2, ?_, ?_⟩
  · exact ((C2_sweep_three_namespaces 1800000 _ (by decide)).2.1 "b@x.com" _).mpr
      (by refine ⟨by decide, by decide⟩)
  · intro hmem
    have h := ((C2_sweep_three_namespaces 1800000 _ (by decide)).2.1 "a@x.com" _).mp hmem
    exact absurd h.2 (by decide)

/-- Counterexample to claim C3. The claim says every namespaced cache
operation treats its key as an opaque exact-match value with no
normalization, so keys differing only in case or surrounding whitespace
address distinct entries. But the mailbox-id operations normalise the key
themselves (`String(address || '').trim().toLowerCase()`): a set under
`" A@X.com"` creates the single entry keyed `"a@x.com"`, the very same entry
a set under `"a@x.com"` addresses. -/
theorem C3_counterexample :
    updateMailboxIdCache " A@X.com" (some 1) 0 (initialCache 0)
      = updateMailboxIdCache "a@x.com" (some 1) 0 (initialCache 0)
    ∧ (updateMailboxIdCache " A@X.com" (some 1) 0 (initialCache 0)).mailboxIds
      = [("a@x.com", { id := some 1, timestamp := 0 })] := by
  refine ⟨by decide, by decide⟩

/-- Claim C3 as amended: the address-to-identifier operations (get-or-load,
set, invalidate) normalise the key themselves — each depends on the address
only through `trim().toLowerCase()`, so keys differing only in case or
surrounding whitespace address the SAME entry. The other namespaces perform
no normalization and are exact-match: a statistic or table-structure
get-or-load under key `k1` leaves the entry of every other key `k2 ≠ k1`
(including case variants) untouched. -/
theorem C3_key_handling_amended :
    (∀ (a1 a2 : String) (id : Option Nat) (now : Nat) (st : CacheState),
      normalizeAddr a1 = normalizeAddr a2 →
      updateMailboxIdCache a1 id now st = updateMailboxIdCache a2 id now st)
  ∧ (∀ (E : Type) (db : String → Except E (Option Nat)) (a1 a2 : String)
        (now : Nat) (st : CacheState),
      normalizeAddr a1 = normalizeAddr a2 →
      getCachedMailboxId db a1 now st = getCachedMailboxId db a2 now st)
  ∧ (∀ (a1 a2 : String) (st : CacheState),
      normalizeAddr a1 = normalizeAddr a2 →
      invalidateMailboxCache a1 st = invalidateMailboxCache a2 st)
  ∧ (∀ (E : Type) (q : Except E Nat) (k1 k2 : String) (now : Nat)
        (st st1 : CacheState) (r : Nat),
      k1 ≠ k2 →
      getCachedSystemStat q k1 now st = Except.ok (r, st1) →
      mget st1.systemStats k2 = mget st.systemStats k2)
  ∧ (∀ (E : Type) (db : String → Except E (List Row)) (n1 n2 : String)
        (now : Nat) (st : CacheState),
      n1 ≠ n2 →
      mget (getCachedTableStructure db n1 now st).2.tableStructures n2
        = mget st.tableStructures n2) := by
  refine ⟨?_, ?_, ?_, ?_, ?_⟩
  · intro a1 a2 id now st h
    unfold updateMailboxIdCache
    rw [h]
  · intro E db a1 a2 now st h
    unfold getCachedMailboxId
    rw [h]
  · intro a1 a2 st h
    unfold invalidateMailboxCache
    rw [h]
  · intro E q k1 k2 now st st1 r hne hok
    have hk : k2 ≠ k1 := Ne.symm hne
    cases hm : mget st.systemStats k1 with
    | none =>
      simp [getCachedSystemStat, hm, systemStatLoad] at hok
      cases q with
      | error e => simp at hok
      | ok v =>
        simp at hok
        rw [← hok.2]
        exact mget_mset_ne _ _ hk
    | some c =>
      by_cases hfresh : now - c.timestamp < CACHE_TTL_systemStats
      · simp [getCachedSystemStat, hm, hfresh] at hok
        rw [← hok.2]
      · simp [getCachedSystemStat, hm, hfresh, systemStatLoad] at hok
        cases q with
        | error e => simp at hok
        | ok v =>
          simp at hok
          rw [← hok.2]
          exact mget_mset_ne _ _ hk
  · intro E db n1 n2 now st hne
    have hk : n2 ≠ n1 := Ne.symm hne
    have hload : ∀ st' : CacheState,
        mget (tableStructureLoad db n1 now st').2.tableStructures n2
          = mget st'.tableStructures n2 := by
      intro st'
      unfold tableStructureLoad
      cases db n1 with
      | error e => rfl
      | ok rows => exact mget_mset_ne _ _ hk
    cases hm : mget st.tableStructures n1 with
    | none => simp [getCachedTableStructure, hm, hload st]
    | some c =>
      by_cases hfresh : now - c.timestamp < CACHE_TTL_tableStructure
      · simp [getCachedTableStructure, hm, hfresh]
      · simp [getCachedTableStructure, hm, hfresh, hload st]

/-- Witness for the amended C3: `" A@X.com"` and `"a@x.com"` normalise alike
and therefore address the same mailbox-id entry, while two distinct statistic
keys differing only in case are kept apart. -/
theorem C3_key_handling_amended_witness :
    updateMailboxIdCache " A@X.com" (some 2) 3 (initialCache 0)
      = updateMailboxIdCache "a@x.com" (some 2) 3 (initialCache 0)
    ∧ mget (getCachedTableStructure (fun _ => (Except.ok [] : Except Unit (List Row))) "Messages" 0 (initialCache 0)).2.tableStructures "messages"
      = mget (initialCache 0).tableStructures "messages" :=
  ⟨C3_key_handling_amended.1 " A@X.com" "a@x.com" (some 2) 3 (initialCache 0)
      (by decide),
   C3_key_handling_amended.2.2.2.2 Unit _ "Messages" "messages" 0
      (initialCache 0) (by decide)⟩

/-- Counterexample to claim C4. The claim says set is an unconditional write
for EVERY value `v`, so an immediate get returns `v`. But
`updateMailboxIdCache` starts with `if (!normalized || !id) return;`, so the
falsy id `0` (and `null`) is silently dropped: the state is unchanged, and an
immediate `getCachedMailboxId` goes to the db (here answering "not found")
and returns `null`, not the value `0` that was set. -/
theorem C4_counterexample :
    updateMailboxIdCache "a@x.com" (some 0) 5 (initialCache 0) = initialCache 0
    ∧ Except.map Prod.fst
        (getCachedMailboxId (fun _ => (Except.ok none : Except Unit (Option Nat)))
          "a@x.com" 5 (updateMailboxIdCache "a@x.com" (some 0) 5 (initialCache 0)))
      = Except.ok none := by
  refine ⟨by decide, rfl⟩

/-- Claim C4 as amended: `updateMailboxIdCache` is a write with a fresh
timestamp whenever the normalised address is nonempty and the id is truthy
(non-null, nonzero) — for every such id, a `getCachedMailboxId` at any later
time within the TTL returns it, for every loader, without touching the
backing store; a falsy id (`null`/`0`) is dropped. The bounded LRU store's
`set` is unconditional: for every value `v`, `set(k, v)` followed by
`get(k)` within the TTL returns `v`. -/
theorem C4_set_then_get_amended :
    (∀ (E : Type) (db : String → Except E (Option Nat)) (address : String)
        (id : Option Nat) (now d : Nat) (st : CacheState),
      normalizeAddr address ≠ "" → idFalsy id = false →
      d < CACHE_TTL_mailboxId →
      getCachedMailboxId db address (now + d)
          (updateMailboxIdCache address id now st)
        = Except.ok (id, updateMailboxIdCache address id now st))
  ∧ (∀ (V : Type) (c : LRUCache V) (now d : Nat) (key : String) (value : V),
      d < c.ttl →
      ((c.set now key value).get (now + d) key).1 = some value) := by
  constructor
  · intro E db address id now d st hne hid hd
    have hupd : updateMailboxIdCache address id now st
        = { st with mailboxIds := mset st.mailboxIds (normalizeAddr address) { id := id, timestamp := now } } := by
      simp [updateMailboxIdCache, hne, hid]
    rw [hupd]
    simp [getCachedMailboxId, hne, mget_mset_self, Nat.add_sub_cancel_left, hd]
  · intro V c now d key value hd
    have hget : mget (c.set now key value).cache key
        = some { value := value, timestamp := now } := by
      unfold LRUCache.set
      exact mget_mset_self _ _ _
    have httl : (c.set now key value).ttl = c.ttl := rfl
    unfold LRUCache.get
    rw [hget, httl]
    simp [Nat.add_sub_cancel_left, Nat.not_lt.mpr (Nat.le_of_lt hd)]

/-- Witness for the amended C4: a truthy mailbox id set then read two
milliseconds later against a throwing loader, and an LRU set/get round trip. -/
theorem C4_set_then_get_amended_witness :
    getCachedMailboxId (fun _ => (Except.error "down" : Except String (Option Nat)))
        "a@x.com" (1 + 2) (updateMailboxIdCache "a@x.com" (some 5) 1 (initialCache 0))
      = Except.ok (some 5, updateMailboxIdCache "a@x.com" (some 5) 1 (initialCache 0))
    ∧ (((LRUCache.empty Nat 3 1000).set 0 "k" 42).get (0 + 7) "k").1 = some 42 :=
  ⟨C4_set_then_get_amended.1 String _ "a@x.com" (some 5) 1 2 (initialCache 0)
      (by decide) (by decide) (by decide),
   C4_set_then_get_amended.2 Nat _ 0 7 "k" 42 (by decide)⟩

/-! ## LRU helper lemmas -/

theorem CMap.length_mdelete_nodup {K E : Type} [DecidableEq K]
    {m : List (K × E)} {k : K} {e : E} (hnd : (m.map Prod.fst).Nodup)
    (h : mget m k = some e) : (mdelete m k).length + 1 = m.length := by
  induction m with
  | nil => simp [mget] at h
  | cons q rest ih =>
    obtain ⟨k0, e0⟩ := q
    rw [List.map_cons] at hnd
    have hnd' := List.nodup_cons.mp hnd
    by_cases h0 : k0 = k
    · subst h0
      have hrest : mget rest k0 = none := mget_eq_none_of_not_mem hnd'.1
      simp [mdelete, mdelete_eq_of_none hrest]
    · simp [mget, h0] at h
      have := ih hnd'.2 h
      simp [mdelete, h0]
      omega

theorem CMap.mget_append_singleton_ne {K E : Type} [DecidableEq K]
    (l : List (K × E)) {k key : K} (e : E) (h : k ≠ key) :
    mget (l ++ [(key, e)]) k = mget l k := by
  induction l with
  | nil => simp [mget, Ne.symm h]
  | cons q rest ih =>
    obtain ⟨k0, e0⟩ := q
    by_cases h0 : k0 = k
    · simp [mget, h0]
    · simp [mget, h0, ih]

theorem CMap.mget_cons_none {K E : Type} [DecidableEq K] {q : K × E}
    {rest : List (K × E)} {k : K} (h : mget (q :: rest) k = none) :
    mget rest k = none := by
  obtain ⟨k0, e0⟩ := q
  by_cases h0 : k0 = k
  · simp [mget, h0] at h
  · simp [mget, h0] at h
    exact h

theorem LRUCache.set_capacity {V : Type} (c : LRUCache V) (now : Nat)
    (key : String) (value : V) : (c.set now key value).capacity = c.capacity :=
  rfl

theorem LRUCache.get_capacity {V : Type} (c : LRUCache V) (now : Nat)
    (key : String) : ((c.get now key).2).capacity = c.capacity := by
  unfold LRUCache.get
  cases hm : mget c.cache key with
  | none => rfl
  | some item =>
    by_cases hex : now - item.timestamp > c.ttl
    · simp [hex]
    · simp [hex]

theorem LRUCache.set_size_le {V : Type} (c : LRUCache V) (now : Nat)
    (key : String) (value : V) (hcap : 1 ≤ c.capacity)
    (hsz : c.size ≤ c.capacity) : (c.set now key value).size ≤ c.capacity := by
  unfold LRUCache.size at *
  unfold LRUCache.set
  cases hm : mget c.cache key with
  | some item =>
    have h1 : (mdelete c.cache key).length < c.cache.length :=
      length_mdelete_lt (by simp [hm])
    have hlt : ¬ (mdelete c.cache key).length ≥ c.capacity := by omega
    simp only [hlt, if_false]
    rw [length_mset_none _ (mget_mdelete_self c.cache key)]
    omega
  | none =>
    by_cases hge : c.cache.length ≥ c.capacity
    · cases hh : c.cache.head? with
      | none =>
        rw [List.head?_eq_none_iff] at hh
        rw [hh] at hsz hge
        simp at hge
        omega
      | some p =>
        simp only [hge, if_true, hh]
        have hps : mget c.cache p.1 = some p.2 := mget_head hh
        have h2 : (mdelete c.cache p.1).length < c.cache.length :=
          length_mdelete_lt (by simp [hps])
        have h3 : mget (mdelete c.cache p.1) key = none :=
          mget_mdelete_none _ _ hm
        rw [length_mset_none _ h3]
        omega
    · simp only [hge, if_false]
      rw [length_mset_none _ hm]
      omega

theorem LRUCache.get_size_le {V : Type} (c : LRUCache V) (now : Nat)
    (key : String) : ((c.get now key).2).size ≤ c.size := by
  unfold LRUCache.size LRUCache.get
  cases hm : mget c.cache key with
  | none => simp
  | some item =>
    by_cases hex : now - item.timestamp > c.ttl
    · simp [hex]
      exact length_mdelete_le c.cache key
    · simp [hex]
      rw [length_mset_none _ (mget_mdelete_self c.cache key)]
      have := length_mdelete_lt (m := c.cache) (k := key) (by simp [hm])
      omega

theorem LRUCache.run_size_le {V : Type} (ops : List (LRUOp V))
    (c : LRUCache V) (hcap : 1 ≤ c.capacity) (hsz : c.size ≤ c.capacity) :
    (c.run ops).size ≤ (c.run ops).capacity := by
  induction ops generalizing c with
  | nil => exact le_trans hsz (le_of_eq rfl)
  | cons op rest ih =>
    cases op with
    | set now k v =>
      exact ih (c.set now k v)
        (by rw [LRUCache.set_capacity]; exact hcap)
        (by rw [LRUCache.set_capacity]; exact c.set_size_le now k v hcap hsz)
    | get now k =>
      exact ih (c.get now k).2
        (by rw [LRUCache.get_capacity]; exact hcap)
        (by rw [LRUCache.get_capacity]; exact le_trans (c.get_size_le now k) hsz)

theorem LRUCache.run_capacity {V : Type} (ops : List (LRUOp V))
    (c : LRUCache V) : (c.run ops).capacity = c.capacity := by
  induction ops generalizing c with
  | nil => rfl
  | cons op rest ih =>
    cases op with
    | set now k v => rw [LRUCache.run, ih, LRUCache.set_capacity]
    | get now k => rw [LRUCache.run, ih, LRUCache.get_capacity]

/-- Counterexample to claim C5. The claim quantifies over every capacity `c`;
at `c = 0` it fails: on an empty `Map`, `firstKey` is `undefined`,
`delete(undefined)` removes nothing, and the new entry is still inserted, so
a single `set` drives `size()` to `1 > 0`. -/
theorem C5_counterexample :
    ¬ (((LRUCache.empty Nat 0 1000).run [LRUOp.set 0 "1" 7]).size
        ≤ (LRUCache.empty Nat 0 1000).capacity) := by
  decide

/-- Claim C5 as amended: for every capacity `c ≥ 1`, after any sequence of
`set`/`get` calls starting from the empty store, `size() ≤ c`; when a `set`
of a new key arrives with the store at capacity, the evicted key is exactly
the least-recently-touched one (the head of the recency order) and everything
else is preserved in order with the new key appended most-recent; a live
`get` also counts as a touch (it moves the key to the most-recent end); and
the concrete scenario holds: capacity 3, insert "1","2","3", read "1",
insert "4" — "2" is evicted leaving recency order "3","1","4". -/
theorem C5_lru_capacity_amended :
    (∀ (V : Type) (capacity ttl : Nat), 1 ≤ capacity →
      ∀ ops : List (LRUOp V),
        ((LRUCache.empty V capacity ttl).run ops).size ≤ capacity)
  ∧ (∀ (V : Type) (c : LRUCache V) (now : Nat) (key : String) (value : V)
        (p : String × LRUEntry V),
      (c.cache.map Prod.fst).Nodup →
      c.size = c.capacity → 1 ≤ c.capacity →
      mget c.cache key = none →
      c.cache.head? = some p →
      (c.set now key value).cache
        = c.cache.tail ++ [(key, { value := value, timestamp := now })])
  ∧ (∀ (V : Type) (c : LRUCache V) (now : Nat) (key : String)
        (item : LRUEntry V),
      mget c.cache key = some item →
      ¬ now - item.timestamp > c.ttl →
      ((c.get now key).2).cache = mdelete c.cache key ++ [(key, item)])
  ∧ ((((((LRUCache.empty Nat 3 1000).set 0 "1" 1).set 0 "2" 2).set 0 "3" 3).get 0 "1").2.set 0 "4" 4).cache
      = [("3", { value := 3, timestamp := 0 }), ("1", { value := 1, timestamp := 0 }), ("4", { value := 4, timestamp := 0 })] := by
  refine ⟨?_, ?_, ?_, by decide⟩
  · intro V capacity ttl hcap ops
    have h := LRUCache.run_size_le ops (LRUCache.empty V capacity ttl) hcap
      (by simp [LRUCache.empty, LRUCache.size])
    rwa [LRUCache.run_capacity] at h
  · intro V c now key value p hnd hsize hcap hm hh
    have hge : c.cache.length ≥ c.capacity := by
      unfold LRUCache.size at hsize
      omega
    have htail : mget c.cache.tail key = none := by
      cases hc : c.cache with
      | nil => rfl
      | cons q rest =>
        rw [hc] at hm
        simp only [List.tail_cons]
        exact mget_cons_none hm
    unfold LRUCache.set
    simp only [hm, hge, if_true, hh]
    rw [mdelete_head_nodup hnd hh, mset_eq_append _ htail]
  · intro V c now key item hm hex
    unfold LRUCache.get
    simp only [hm, hex, if_false]
    rw [mset_eq_append _ (mget_mdelete_self c.cache key)]

/-- Witness for the amended C5: a two-entry store at capacity 2 receives a
new key; the head entry `"a"` (least recently touched) is evicted, `"b"` is
kept, and `"c"` is appended most-recent. -/
theorem C5_lru_capacity_amended_witness :
    (({ capacity := 2, ttl := 1000, cache := [("a", { value := 1, timestamp := 0 }), ("b", { value := 2, timestamp := 0 })] } : LRUCache Nat).set 5 "c" 3).cache
      = [("b", { value := 2, timestamp := 0 }), ("c", { value := 3, timestamp := 5 })] := by
  have h := C5_lru_capacity_amended.2.1 Nat
    { capacity := 2, ttl := 1000, cache := [("a", { value := 1, timestamp := 0 }), ("b", { value := 2, timestamp := 0 })] }
    5 "c" 3 ("a", { value := 1, timestamp := 0 })
    (by decide) (by decide) (by decide) (by decide) (by decide)
  exact h

/-- Claim C10: on a bounded LRU store exactly at capacity, `set` on a key
that is already present replaces only that key's entry — the store becomes
the old store minus that key, in order, with the key re-appended most-recent
carrying the new value and a fresh timestamp — evicts nothing (every other
key's entry is unchanged), and `size()` is unchanged (still the capacity). -/
theorem C10_set_existing_at_capacity {V : Type} (c : LRUCache V) (now : Nat)
    (key : String) (value : V) (e0 : LRUEntry V)
    (hnd : (c.cache.map Prod.fst).Nodup)
    (hsize : c.size = c.capacity)
    (hkey : mget c.cache key = some e0) :
    (c.set now key value).size = c.capacity
    ∧ (c.set now key value).cache
        = mdelete c.cache key ++ [(key, { value := value, timestamp := now })]
    ∧ (∀ k : String, k ≠ key →
        mget (c.set now key value).cache k = mget c.cache k)
    ∧ mget (c.set now key value).cache key
        = some { value := value, timestamp := now } := by
  have hlen1 : (mdelete c.cache key).length + 1 = c.cache.length :=
    length_mdelete_nodup hnd hkey
  have hno : ¬ (mdelete c.cache key).length ≥ c.capacity := by
    unfold LRUCache.size at hsize
    omega
  have hcache : (c.set now key value).cache
      = mdelete c.cache key ++ [(key, { value := value, timestamp := now })] := by
    unfold LRUCache.set
    simp only [hkey, hno, if_false]
    rw [mset_eq_append _ (mget_mdelete_self c.cache key)]
  refine ⟨?_, hcache, ?_, ?_⟩
  · unfold LRUCache.size at *
    rw [hcache]
    simp
    omega
  · intro k hk
    rw [hcache, mget_append_singleton_ne _ _ hk]
    exact mget_mdelete_ne _ hk
  · rw [hcache, ← mset_eq_append _ (mget_mdelete_self c.cache key)]
    exact mget_mset_self _ _ _

/-- Witness for C10: a store at capacity 2 re-sets the existing key `"a"`;
`"b"` is untouched, `"a"` moves to most-recent with the new value and
timestamp, and the size stays 2. -/
theorem C10_set_existing_at_capacity_witness :
    (({ capacity := 2, ttl := 1000, cache := [("a", { value := 1, timestamp := 0 }), ("b", { value := 2, timestamp := 0 })] } : LRUCache Nat).set 9 "a" 7).cache
      = [("b", { value := 2, timestamp := 0 }), ("a", { value := 7, timestamp := 9 })]
    ∧ (({ capacity := 2, ttl := 1000, cache := [("a", { value := 1, timestamp := 0 }), ("b", { value := 2, timestamp := 0 })] } : LRUCache Nat).set 9 "a" 7).size = 2 := by
  have h := C10_set_existing_at_capacity
    ({ capacity := 2, ttl := 1000, cache := [("a", { value := 1, timestamp := 0 }), ("b", { value := 2, timestamp := 0 })] } : LRUCache Nat)
    9 "a" 7 { value := 1, timestamp := 0 } (by decide) (by decide) (by decide)
  exact ⟨h.2.1, h.1⟩

end Freemail
